import Mathlib

/-!
Shallow embedding of the lispy interpreter (lexer tokens, reader, value
model, environment, core namespace, evaluator) and proofs about the
behaviour its specification claims.

Modelling conventions:
* Rust `f64` number payloads are modelled as `Int`; no claim below depends
  on float-specific behaviour (NaN, rounding, signed zero) or on
  non-integral values.
* Rust `HashMap<LispyType, LispyType>` is modelled as an association list;
  the spec declares hash iteration order irrelevant.
* Host panics (`unwrap` on `None`/`Err`, slice underflow, the `panic!`
  macro) are modelled by the explicit result `Res.panicked`.
* General recursion in the Rust evaluator is modelled with an explicit
  fuel parameter; `Res.fuelOut` marks fuel exhaustion and is a modelling
  artefact, never a behaviour of the program.
-/

mutual

inductive LispyType where
  | nil
  | bool (value : Bool)
  | number (value : Int)
  | symbol (value : String)
  | keyword (value : String)
  | string (value : String)
  | list (collection : List LispyType)
  | hash (collection : List (LispyType × LispyType))
  | error (error_type : String) (message : String)
  | function (arity : Option Nat) (func : BuiltinFn)
  | lambda (bindings : List LispyType) (to_eval : LispyType)
      (env : LispyEnv) (macroFlag : Bool)

inductive LispyEnv where
  | mk (store : List (String × LispyType)) (parent : Option LispyEnv)

/-- Tags for the native functions installed by `apply_core_ns`
(`src/core_ns.rs`).  The Rust `Function` variant stores a function
pointer; we store a tag and interpret it in `applyBuiltin`.  There is one
tag per `env.set` call site with a distinct body; the two registrations of
the name `"<"` have different bodies and get the tags `ltFn` and `leFn`. -/
inductive BuiltinFn where
  | addFn | subFn | mulFn | divFn
  | printlnFn | printFn
  | listFn | countFn | consFn | concatFn | firstFn | restFn | nthFn
  | nilP | boolP | symbolP | numberP | stringP | listP | hashP
  | functionP | macroP
  | eqFn | gtFn | ltFn | geFn | leFn
  | compileStringFn | slurpFn

end

/-- Result of running a piece of embedded code.  `ok` is a normal value,
`err` a raised error propagating as `Err(LispyType)` in Rust, `panicked`
a host panic, `fuelOut` exhaustion of the modelling fuel. -/
inductive Res (α : Type) where
  | ok (val : α)
  | err (e : LispyType)
  | panicked
  | fuelOut
deriving Inhabited

def Res.bind {α β : Type} : Res α → (α → Res β) → Res β
  | .ok a, f => f a
  | .err e, _ => .err e
  | .panicked, _ => .panicked
  | .fuelOut, _ => .fuelOut

instance : Monad Res where
  pure := Res.ok
  bind := Res.bind

/-- Rust `Option::unwrap`: a missing value is a host panic. -/
def fromOpt {α : Type} : Option α → Res α
  | some a => .ok a
  | none => .panicked

namespace LispyEnv

def store : LispyEnv → List (String × LispyType)
  | .mk s _ => s

def parent : LispyEnv → Option LispyEnv
  | .mk _ p => p

/-- Lookup in the current frame only (Rust `HashMap::get` on `store`). -/
def storeGet (s : List (String × LispyType)) (key : String) :
    Option LispyType :=
  match s with
  | [] => none
  | (k, v) :: rest => if k = key then some v else storeGet rest key

/-- `LispyEnv::get_item`: current frame first, then the parent chain
(the source checks `self.store.get(key)` and recurses into the parent on
a miss; splitting on the parent in the pattern is the same function). -/
def get_item : LispyEnv → String → Option LispyType
  | .mk s none, key => storeGet s key
  | .mk s (some par), key =>
    match storeGet s key with
    | some v => some v
    | none => get_item par key

/-- `LispyEnv::set_item` / `set`: insert into the current frame.  The Rust
`HashMap::insert` replaces any previous binding for the key; consing a new
entry in front gives the same `get_item` observations. -/
def set_item (env : LispyEnv) (key : String) (value : LispyType) :
    LispyEnv :=
  .mk ((key, value) :: env.store) env.parent

/-- `LispyEnv::child`: fresh frame whose parent is a clone of `parent`. -/
def child (par : LispyEnv) : LispyEnv := .mk [] (some par)

/-- `LispyEnv::child_lambda`: identical construction to `child`. -/
def child_lambda (par : LispyEnv) : LispyEnv := .mk [] (some par)

/-- Modelled from the spec: `LispyEnv::modify_with` is called by
`machine.rs` but its definition is not among the provided sources.  The
spec (sections 3.2 and 4.6) has `def!`-family forms bind in the caller's
environment; `modify_with(&env)` therefore adopts the callee clone's
state, which is the caller's state plus the new bindings. -/
def modify_with (_target other : LispyEnv) : LispyEnv := other

end LispyEnv

namespace LispyType

def is_nil : LispyType → Bool
  | .nil => true
  | _ => false

def is_bool : LispyType → Bool
  | .bool _ => true
  | _ => false

def is_number : LispyType → Bool
  | .number _ => true
  | _ => false

def is_symbol : LispyType → Bool
  | .symbol _ => true
  | _ => false

def is_keyword : LispyType → Bool
  | .keyword _ => true
  | _ => false

def is_string : LispyType → Bool
  | .string _ => true
  | _ => false

def is_list : LispyType → Bool
  | .list _ => true
  | _ => false

def is_hash : LispyType → Bool
  | .hash _ => true
  | _ => false

def is_error : LispyType → Bool
  | .error _ _ => true
  | _ => false

def is_function : LispyType → Bool
  | .function _ _ => true
  | .lambda _ _ _ _ => true
  | _ => false

def is_lambda : LispyType → Bool
  | .lambda _ _ _ _ => true
  | _ => false

def as_bool : LispyType → Option Bool
  | .bool v => some v
  | _ => none

def as_number : LispyType → Option Int
  | .number v => some v
  | _ => none

def as_symbol : LispyType → Option String
  | .symbol v => some v
  | _ => none

def as_keyword : LispyType → Option String
  | .keyword v => some v
  | _ => none

def as_string : LispyType → Option String
  | .string v => some v
  | _ => none

def as_list : LispyType → Option (List LispyType)
  | .list c => some c
  | _ => none

def as_hash : LispyType → Option (List (LispyType × LispyType))
  | .hash c => some c
  | _ => none

/-- `LispyType::as_error`, returning the `(message, error_type)` pair of
the Rust `LispyErrorInternal`. -/
def as_error : LispyType → Option (String × String)
  | .error t m => some (m, t)
  | _ => none

/-- `LispyType::is_truthy` (`src/types.rs` lines 250-259).  Note the
`Number` arm: `*value != 0.0`, so the number zero is falsy. -/
def is_truthy : LispyType → Bool
  | .nil => false
  | .bool v => v
  | .number v => decide (v ≠ 0)
  | _ => true

/-- `LispyType::create_error(message, err_type)`. -/
def create_error (message err_type : String) : LispyType :=
  .error err_type message

def create_bool (value : Bool) : LispyType := .bool value

def create_number (value : Int) : LispyType := .number value

def create_nil : LispyType := .nil

def create_string (value : String) : LispyType := .string value

def create_function (arity : Option Nat) (func : BuiltinFn) : LispyType :=
  .function arity func

/-- Modelled from the spec: `LispyType::create_symbol` is used by
`machine.rs` (quasiquote expansion, section 4.9) but its definition is not
among the provided sources; it is the evident `Symbol` constructor. -/
def create_symbol (value : String) : LispyType := .symbol value

/-- Modelled from the spec: `LispyType::create_list` is used by
`machine.rs` but its definition is not among the provided sources; it is
the evident `List` constructor. -/
def create_list (collection : List LispyType) : LispyType :=
  .list collection

/-- Modelled from the spec: `LispyType::is_macro` is used by `machine.rs`
and `core_ns.rs` but its definition is not among the provided sources.
Per spec section 4.5 a macro is a `Lambda` whose `is_macro` flag is set;
every other value is not a macro. -/
def is_macro_value : LispyType → Bool
  | .lambda _ _ _ f => f
  | _ => false

/-- Modelled from the spec: `LispyType::convert_to_macro` is used by the
`defmacro!` branch of `machine.rs` but its definition is not among the
provided sources.  Per spec section 4.6 it installs a macro-flagged copy
of the lambda; `machine.rs` only calls it after an `is_lambda` check, and
on a non-lambda we return the value unchanged. -/
def convert_to_macro_fn : LispyType → LispyType
  | .lambda b t e _ => .lambda b t e true
  | v => v

/-- Modelled from the spec: `LispyType::is_symbol_containing` is used by
`machine.rs` quasiquote expansion but its definition is not among the
provided sources.  Per spec section 4.9 it recognises a list head that is
the symbol of the given name. -/
def is_symbol_containing (v : LispyType) (name : String) : Bool :=
  match v with
  | .symbol s => s = name
  | _ => false

end LispyType

/-- Keys of the hashable variants (`impl Hash for LispyType`,
`src/types.rs` lines 440-452); any other variant panics when hashed. -/
def LispyType.is_hashable_key : LispyType → Bool
  | .nil => true
  | .bool _ => true
  | .number _ => true
  | .symbol _ => true
  | .keyword _ => true
  | .string _ => true
  | _ => false

mutual

/-- `impl PartialEq for LispyType` (`src/types.rs` lines 386-436).  The
`List` arm reproduces the source loop `for index in 0..len - 1`, which
compares all index pairs except the last one (`lispyEqButLast`); the
`Hash` arm compares sizes and then looks every key of the left map up in
both maps. -/
def lispyEq : Nat → LispyType → LispyType → Res Bool
  | 0, _, _ => .fuelOut
  | fuel+1, a, b =>
    match a with
    | .nil => .ok b.is_nil
    | .bool _ => .ok (b.is_bool && a.as_bool == b.as_bool)
    | .number _ => .ok (b.is_number && a.as_number == b.as_number)
    | .symbol _ => .ok (b.is_symbol && a.as_symbol == b.as_symbol)
    | .keyword _ => .ok (b.is_keyword && a.as_keyword == b.as_keyword)
    | .string _ => .ok (b.is_string && a.as_string == b.as_string)
    | .list xs =>
      match b with
      | .list ys =>
        if ys.length ≠ xs.length then .ok false
        else lispyEqButLast fuel xs ys
      | _ => .ok false
    | .hash kvs =>
      match b with
      | .hash kvs2 =>
        if kvs2.length ≠ kvs.length then .ok false
        else hashKeysEq fuel kvs kvs kvs2
      | _ => .ok false
    | .error t _ =>
      match b with
      | .error t2 _ => .ok (t = t2)
      | _ => .ok false
    | .function _ _ => .ok false
    | .lambda _ _ _ _ => .ok false

/-- The `List` equality loop `for index in 0..self.len() - 1`: it is only
entered once both lengths are known equal, so walking both lists while the
first still has at least two elements compares exactly the index pairs
`0 .. len-2`, skipping the final pair — as the source does.  (For `len =
0` the Rust range `0..0-1` underflows `usize`; in release mode the loop
then only ever compares `None == None` and falls through to `true`, which
this truncated model also returns.) -/
def lispyEqButLast : Nat → List LispyType → List LispyType → Res Bool
  | 0, _, _ => .fuelOut
  | fuel+1, x :: xs@(_ :: _), y :: ys => do
    let r ← lispyEq fuel x y
    if r then lispyEqButLast fuel xs ys else .ok false
  | _+1, _, _ => .ok true

/-- `Option<&LispyType>` equality used by the comparison loops. -/
def optResEq : Nat → Option LispyType → Option LispyType → Res Bool
  | 0, _, _ => .fuelOut
  | _+1, none, none => .ok true
  | fuel+1, some a, some b => lispyEq fuel a b
  | _+1, _, _ => .ok false

/-- `HashMap::get` on the association-list model: probing hashes the key
(panic on an unhashable variant), then compares keys with `==`. -/
def hashGetF : Nat → List (LispyType × LispyType) → LispyType →
    Res (Option LispyType)
  | 0, _, _ => .fuelOut
  | _+1, [], _ => .ok none
  | fuel+1, (k2, v) :: rest, k => do
    let r ← lispyEq fuel k2 k
    if r then .ok (some v) else hashGetF fuel rest k

/-- The `Hash` arm key walk: `self.get(key) != other.get(key)` for every
key of `self`. -/
def hashKeysEq : Nat → List (LispyType × LispyType) →
    List (LispyType × LispyType) → List (LispyType × LispyType) → Res Bool
  | 0, _, _, _ => .fuelOut
  | _+1, [], _, _ => .ok true
  | fuel+1, (k, _) :: rest, self, other => do
    if ¬ k.is_hashable_key then .panicked
    else do
      let v1 ← hashGetF fuel self k
      let v2 ← hashGetF fuel other k
      let r ← optResEq fuel v1 v2
      if r then hashKeysEq fuel rest self other else .ok false

end

/-- `HashMap::insert` on the association-list model: hashing an
unhashable key variant panics (`impl Hash`); an existing `==`-equal key
has its value replaced, otherwise the pair is appended. -/
def hashInsertF (fuel : Nat) (kvs : List (LispyType × LispyType))
    (k v : LispyType) : Res (List (LispyType × LispyType)) :=
  if ¬ k.is_hashable_key then .panicked
  else replace fuel kvs
where
  replace : Nat → List (LispyType × LispyType) →
      Res (List (LispyType × LispyType))
    | _, [] => .ok [(k, v)]
    | fuel, (k2, v2) :: rest => do
      let r ← lispyEq fuel k2 k
      if r then .ok ((k2, v) :: rest)
      else do
        let rest2 ← replace fuel rest
        .ok ((k2, v2) :: rest2)

/-- Rust prints an `f64` with `{}`; the payload is modelled as `Int`, so
integral values print the same way (no claim inspects number spellings). -/
def numDisplay (q : Int) : String := toString q

mutual

/-- `impl Display for LispyType` (`src/types.rs` lines 332-384).  The
`List` arm calls `collection.first().unwrap()`, a panic on the empty
list; the `Hash` arm slices `str[0..str.len() - 2]`, a panic when the
built string is empty. -/
def display : Nat → LispyType → Res String
  | 0, _ => .fuelOut
  | fuel+1, v =>
    match v with
    | .nil => .ok "nil"
    | .bool b => .ok (if b then "true" else "false")
    | .number q => .ok (numDisplay q)
    | .symbol s => .ok ("Symbol<" ++ s ++ ">")
    | .keyword s => .ok ("Keyword<" ++ s ++ ">")
    | .string s => .ok s
    | .list xs =>
      match xs with
      | [] => .panicked
      | x :: rest => do
        let s0 ← display fuel x
        let s1 ← displayRest fuel rest
        .ok ("[" ++ s0 ++ s1 ++ "]")
    | .hash kvs =>
      match kvs with
      | [] => .panicked
      | _ => do
        let s ← displayHash fuel kvs
        .ok ("\x7b" ++ s.dropRight 2 ++ "\x7d")
    | .error _ m => .ok m
    | .function _ _ => .ok "#<function>"
    | .lambda _ _ _ _ => .ok "#<lambda-function>"

def displayRest : Nat → List LispyType → Res String
  | 0, _ => .fuelOut
  | _+1, [] => .ok ""
  | fuel+1, x :: rest => do
    let s ← display fuel x
    let s1 ← displayRest fuel rest
    .ok (", " ++ s ++ s1)

def displayHash : Nat → List (LispyType × LispyType) → Res String
  | 0, _ => .fuelOut
  | _+1, [] => .ok ""
  | fuel+1, (k, v) :: rest => do
    let sk ← display fuel k
    let sv ← display fuel v
    let s1 ← displayHash fuel rest
    .ok (sk ++ " -> " ++ sv ++ ", " ++ s1)

end

mutual

/-- Models Rust `{:?}` (the derived `Debug` impl) which is only used to
build error message strings.  The derived impl is total; the exact
rendered text is not inspected by any claim, so the spelling here is a
simplified rendition (and nesting deeper than the fuel is elided). -/
def debugFmt : Nat → LispyType → String
  | 0, _ => "..."
  | fuel+1, v =>
    match v with
    | .nil => "Nil"
    | .bool b => "Bool(" ++ (if b then "true" else "false") ++ ")"
    | .number q => "Number(" ++ numDisplay q ++ ")"
    | .symbol s => "Symbol(" ++ s ++ ")"
    | .keyword s => "Keyword(" ++ s ++ ")"
    | .string s => "String(" ++ s ++ ")"
    | .list xs => "List(" ++ debugFmtList fuel xs ++ ")"
    | .hash kvs => "Hash(" ++ debugFmtHash fuel kvs ++ ")"
    | .error t m => "Error(" ++ t ++ ", " ++ m ++ ")"
    | .function _ _ => "Function"
    | .lambda _ _ _ _ => "Lambda"

def debugFmtList : Nat → List LispyType → String
  | 0, _ => "..."
  | _+1, [] => ""
  | fuel+1, x :: rest => debugFmt fuel x ++ " " ++ debugFmtList fuel rest

def debugFmtHash : Nat → List (LispyType × LispyType) → String
  | 0, _ => "..."
  | _+1, [] => ""
  | fuel+1, (k, v) :: rest =>
    debugFmt fuel k ++ ": " ++ debugFmt fuel v ++ " " ++
      debugFmtHash fuel rest

end

/-- `LispyType::len` (`src/types.rs` lines 262-284).  The error arm
formats the value with `Display` (which can panic; here that only happens
for collection arguments, which never reach the arm). -/
def lenF (fuel : Nat) : LispyType → Res LispyType
  | .string s => .ok (.number (s.length : Int))
  | .list xs => .ok (.number (xs.length : Int))
  | .hash kvs => .ok (.number (kvs.length : Int))
  | v => do
    let d ← display fuel v
    .ok (LispyType.create_error (d ++ " does not have length")
      "INCORRECT_TYPE")

/-- `impl Add for LispyType`; note every arithmetic impl in the source
reuses the `+` error message. -/
def lispyAdd : LispyType → LispyType → LispyType
  | .number a, rhs =>
    match rhs.as_number with
    | some b => .number (a + b)
    | none => .error "INCORRECT_TYPE" "+ only works with number vars"
  | _, _ => .error "INCORRECT_TYPE" "+ only works with number vars"

/-- `impl Sub for LispyType`. -/
def lispySub : LispyType → LispyType → LispyType
  | .number a, rhs =>
    match rhs.as_number with
    | some b => .number (a - b)
    | none => .error "INCORRECT_TYPE" "+ only works with number vars"
  | _, _ => .error "INCORRECT_TYPE" "+ only works with number vars"

/-- `impl Mul for LispyType`. -/
def lispyMul : LispyType → LispyType → LispyType
  | .number a, rhs =>
    match rhs.as_number with
    | some b => .number (a * b)
    | none => .error "INCORRECT_TYPE" "+ only works with number vars"
  | _, _ => .error "INCORRECT_TYPE" "+ only works with number vars"

/-- `impl Div for LispyType`.  (`Rat` division by zero yields `0` where
`f64` yields an infinity; no claim divides by zero.) -/
def lispyDiv : LispyType → LispyType → LispyType
  | .number a, rhs =>
    match rhs.as_number with
    | some b => .number (a / b)
    | none => .error "INCORRECT_TYPE" "+ only works with number vars"
  | _, _ => .error "INCORRECT_TYPE" "+ only works with number vars"

/-- `impl PartialOrd for LispyType` (`src/types.rs` lines 522-531): a
`Number` on the left unwraps `other.as_number()` — a panic when the right
side is not a Number; any other left side gives `None`. -/
def lispyCmp : LispyType → LispyType → Res (Option Ordering)
  | .number a, b =>
    match b.as_number with
    | some q =>
      .ok (some (if a < q then .lt else if q < a then .gt else .eq))
    | none => .panicked
  | _, _ => .ok none

/-- The binding loop of `LispyType::apply_lambda` (`src/types.rs` lines
224-235): each binding must be a symbol and is installed positionally.
The error message formats the offending binding with `Display`. -/
def bindParams (fuel : Nat) :
    List LispyType → List LispyType → LispyEnv → Res LispyEnv
  | [], _, env => .ok env
  | k :: ks, v :: vs, env =>
    match k.as_symbol with
    | some s => bindParams fuel ks vs (env.set_item s v)
    | none => do
      let d ← display fuel k
      .err (.error "INCORRECT_TYPE"
        ("Bindings should consist of symbols. Received " ++ d))
  | _ :: _, [], _ => .panicked

/-- `LispyType::apply_lambda` (`src/types.rs` lines 212-245): exact
argument-count check against the binding list (there is no `&`/rest
handling), then positional binding into a fresh child of the captured
environment. -/
def apply_lambda (fuel : Nat) (f : LispyType) (args : List LispyType) :
    Res (LispyType × LispyEnv) :=
  match f with
  | .lambda bindings to_eval env _ =>
    if bindings.length ≠ args.length then
      .err (.error "INCORRECT_ARITY"
        ("Expected arity " ++ toString bindings.length ++ ", received " ++
          toString args.length))
    else do
      let n_env ← bindParams fuel bindings args (LispyEnv.child_lambda env)
      .ok (to_eval, n_env)
  | _ =>
    .err (.error "NOT_A_FUNCTION" (debugFmt fuel f ++ " is not a function"))

/-- The token type produced by the lexer (`src/lexer.rs`). -/
inductive LexerToken where
  | listStart
  | listEnd
  | hashStart
  | hashEnd
  | booleanTok (value : Bool)
  | nilTok
  | quoteTok
  | quasiQuoteTok
  | unquoteTok
  | spliceUnquoteTok
  | argsSpreadTok
  | stringTok (value : String)
  | numberTok (value : Int)
  | keywordTok (value : String)
  | symbolTok (value : String)
  | errorTok
deriving DecidableEq

mutual

/-- `build_any_form` (`src/compiler.rs` lines 34-88).  `TokenReader::peek`
indexes `data[index]`, a panic at end of input; the catch-all arm is
`panic!("Unknown token …")`, so `Quote`/`QuasiQuote`/`Unquote`/
`SpliceUnquote`/`ArgsSpread`/`Error` tokens and stray closing brackets
all panic.  The `String` arm slices `val[1..len-1]`, a panic when the
token text is shorter than two characters. -/
def build_any_form : Nat → List LexerToken → Res (LispyType × List LexerToken)
  | 0, _ => .fuelOut
  | fuel+1, ts =>
    match ts with
    | [] => .panicked
    | t :: rest =>
      match t with
      | .nilTok => .ok (.nil, rest)
      | .booleanTok b => .ok (.bool b, rest)
      | .stringTok s =>
        if s.length < 2 then .panicked
        else .ok (.string ((s.drop 1).dropRight 1), rest)
      | .numberTok v => .ok (.number v, rest)
      | .keywordTok s => .ok (.keyword s, rest)
      | .symbolTok s => .ok (.symbol s, rest)
      | .listStart => buildListForms fuel rest []
      | .hashStart => buildHashForms fuel rest []
      | _ => .panicked

/-- The `while reader.peek() != ListEnd` loop of the `ListStart` arm. -/
def buildListForms : Nat → List LexerToken → List LispyType →
    Res (LispyType × List LexerToken)
  | 0, _, _ => .fuelOut
  | fuel+1, ts, acc =>
    match ts with
    | [] => .panicked
    | t :: rest =>
      if t = .listEnd then .ok (.list acc.reverse, rest)
      else do
        let (v, ts2) ← build_any_form fuel (t :: rest)
        buildListForms fuel ts2 (v :: acc)

/-- The `while reader.peek() != HashEnd` loop of the `HashStart` arm: a
key form and then, unconditionally, a value form (on an odd element count
the value read hits the closing brace and panics in `build_any_form`). -/
def buildHashForms : Nat → List LexerToken → List (LispyType × LispyType) →
    Res (LispyType × List LexerToken)
  | 0, _, _ => .fuelOut
  | fuel+1, ts, acc =>
    match ts with
    | [] => .panicked
    | t :: rest =>
      if t = .hashEnd then .ok (.hash acc, rest)
      else do
        let (k, ts2) ← build_any_form fuel (t :: rest)
        let (v, ts3) ← build_any_form fuel ts2
        let acc2 ← hashInsertF fuel acc k v
        buildHashForms fuel ts3 acc2

end

/-- `build_from_tokens` (`src/compiler.rs` lines 91-99): forms until the
reader is empty. -/
def build_from_tokens : Nat → List LexerToken → Res (List LispyType)
  | 0, _ => .fuelOut
  | _+1, [] => .ok []
  | fuel+1, t :: rest => do
    let (v, ts2) ← build_any_form fuel (t :: rest)
    let vs ← build_from_tokens fuel ts2
    .ok (v :: vs)

def isWordChar (c : Char) : Bool := c.isAlphanum || c = '_'

def isSymbolStart (c : Char) : Bool :=
  isWordChar c || c = '+' || c = '-' || c = '*' || c = '/' || c = '$' ||
    c = '&' || c = '#' || c = '='

def isSymbolCont (c : Char) : Bool :=
  isWordChar c || c = '-' || c = '!' || c = '@' || c = '#' || c = '$' ||
    c = '+' || c = '?' || c = '~' || c = '*' || c = '='

def isKeywordCont (c : Char) : Bool :=
  isWordChar c || c = '-' || c = '!' || c = '@' || c = '#' || c = '$' ||
    c = '+' || c = '?' || c = '~'

def digitsVal (ds : List Char) : Nat :=
  ds.foldl (fun acc c => acc * 10 + (c.toNat - 48)) 0

/-- Number recognizer `[-]?((\d+(\.\d*)?)|(\.\d+))`: returns the parsed
value, the number of characters consumed, and the rest.  With the `Int`
number model a fractional literal is truncated to its integer part; no
claim lexes fractional literals. -/
def numberMunch (cs : List Char) : Option (Int × Nat × List Char) :=
  let (neg, negLen, cs1) :=
    match cs with
    | '-' :: r => (true, 1, r)
    | _ => (false, 0, cs)
  let (ds, cs2) := cs1.span Char.isDigit
  if ds.isEmpty then
    match cs2 with
    | '.' :: cs3 =>
      let (fs, cs4) := cs3.span Char.isDigit
      if fs.isEmpty then none
      else some (0, negLen + 1 + fs.length, cs4)
    | _ => none
  else
    match cs2 with
    | '.' :: cs3 =>
      let (fs, cs4) := cs3.span Char.isDigit
      let v : Int := (digitsVal ds : Int)
      some (if neg then -v else v, negLen + ds.length + 1 + fs.length, cs4)
    | _ =>
      let v : Int := (digitsVal ds : Int)
      some (if neg then -v else v, negLen + ds.length, cs2)

/-- Symbol recognizer `[\w+\-*/$&#=][\w\-!@#$+?~*=]*`. -/
def symbolMunch (cs : List Char) : Option (List Char × Nat × List Char) :=
  match cs with
  | c :: rest =>
    if isSymbolStart c then
      let (tk, r) := rest.span isSymbolCont
      some (c :: tk, 1 + tk.length, r)
    else none
  | [] => none

/-- Keyword recognizer `:(:|\w)[\w\-!@#$+?~]*`. -/
def keywordMunch (cs : List Char) : Option (List Char × List Char) :=
  match cs with
  | ':' :: c2 :: rest =>
    if c2 = ':' || isWordChar c2 then
      let (tk, r) := rest.span isKeywordCont
      some (':' :: c2 :: tk, r)
    else none
  | _ => none

/-- Body scan of the string recognizer `"(\\"|[^"])*"`, from just after
the opening quote; returns the body characters and the rest after the
closing quote. -/
def stringScan : Nat → List Char → Option (List Char × List Char)
  | 0, _ => none
  | fuel+1, cs =>
    match cs with
    | [] => none
    | c :: rest =>
      if c.toNat = 92 then
        match rest with
        | c2 :: rest2 =>
          if c2.toNat = 34 then
            match stringScan fuel rest2 with
            | some (body, r) => some (c :: c2 :: body, r)
            | none => none
          else
            match stringScan fuel rest with
            | some (body, r) => some (c :: body, r)
            | none => none
        | [] => none
      else if c.toNat = 34 then some ([], rest)
      else
        match stringScan fuel rest with
        | some (body, r) => some (c :: body, r)
        | none => none

/-- A `;` line comment runs to the next newline. -/
def dropComment (cs : List Char) : List Char :=
  match cs.dropWhile (fun c => c ≠ '\n') with
  | _ :: rest => rest
  | [] => []

/-- Fixed keyword-like tokens compete with the symbol rule at equal
length and win on priority. -/
def symbolOrFixed (text : List Char) : LexerToken :=
  let s := String.mk text
  if s = "nil" then .nilTok
  else if s = "true" then .booleanTok true
  else if s = "false" then .booleanTok false
  else if s = "&" then .argsSpreadTok
  else .symbolTok s

/-- Modelled from the spec (section 4.1): the Rust lexer is the external
`logos` regex engine driven by the token table of `src/lexer.rs`, so the
matching loop itself is not repository code.  This model implements the
table with longest-match semantics: whitespace, commas and `;…\n`
comments are skipped, `~@` is tried before `~`, fixed tokens win ties
against the symbol rule, the number rule wins its priority-2 tie against
the symbol rule, and an unrecognized character becomes an `Error` token.
(A `;` comment at end of input without a newline is treated as a comment;
`logos` would emit `Error` tokens there.  No claim lexes text.) -/
def lexLoop : Nat → List Char → List LexerToken
  | 0, _ => []
  | _+1, [] => []
  | fuel+1, c :: cs =>
    if c = ' ' || c = '\t' || c = '\n' || c = '\r' || c = ',' then
      lexLoop fuel cs
    else if c = ';' then lexLoop fuel (dropComment cs)
    else if c = '(' then .listStart :: lexLoop fuel cs
    else if c = ')' then .listEnd :: lexLoop fuel cs
    else if c.toNat = 123 then .hashStart :: lexLoop fuel cs
    else if c.toNat = 125 then .hashEnd :: lexLoop fuel cs
    else if c.toNat = 39 then .quoteTok :: lexLoop fuel cs
    else if c.toNat = 96 then .quasiQuoteTok :: lexLoop fuel cs
    else if c = '~' then
      match cs with
      | '@' :: cs2 => .spliceUnquoteTok :: lexLoop fuel cs2
      | _ => .unquoteTok :: lexLoop fuel cs
    else if c.toNat = 34 then
      match stringScan fuel cs with
      | some (body, rest) =>
        .stringTok (String.mk ('"' :: (body ++ ['"']))) :: lexLoop fuel rest
      | none => .errorTok :: lexLoop fuel cs
    else if c = ':' then
      match keywordMunch (c :: cs) with
      | some (text, rest) => .keywordTok (String.mk text) :: lexLoop fuel rest
      | none => .errorTok :: lexLoop fuel cs
    else
      match numberMunch (c :: cs), symbolMunch (c :: cs) with
      | some (v, nlen, nrest), some (stext, slen, srest) =>
        if nlen < slen then symbolOrFixed stext :: lexLoop fuel srest
        else .numberTok v :: lexLoop fuel nrest
      | some (v, _, nrest), none => .numberTok v :: lexLoop fuel nrest
      | none, some (stext, _, srest) =>
        symbolOrFixed stext :: lexLoop fuel srest
      | none, none => .errorTok :: lexLoop fuel cs

/-- `compile_source_code_to_ast` (`src/compiler.rs` lines 102-106). -/
def compile_source_code_to_ast (fuel : Nat) (source : String) :
    Res (List LispyType) :=
  build_from_tokens fuel (lexLoop fuel source.data)

/-- Modelled from the spec (section 6.2): `LispyType::first` is called by
the `first` built-in of `core_ns.rs` but its definition is not among the
provided sources — "first element or Nil on empty"; a non-list argument
is taken to the `INCORRECT_TYPE` error channel like `count`. -/
def firstF : LispyType → Res LispyType
  | .list [] => .ok .nil
  | .list (x :: _) => .ok x
  | _ => .err (LispyType.create_error "first expects a list" "INCORRECT_TYPE")

/-- Modelled from the spec (section 6.2): `LispyType::rest` — "list
without first element; on empty, empty list". -/
def restF : LispyType → Res LispyType
  | .list [] => .ok (.list [])
  | .list (_ :: xs) => .ok (.list xs)
  | _ => .err (LispyType.create_error "rest expects a list" "INCORRECT_TYPE")

/-- Rust `f64 as usize` on the index argument of `nth`: truncation toward
zero, saturating at zero for negative values. -/
def intToUsize (q : Int) : Nat := q.toNat

/-- Modelled from the spec (section 6.2): `LispyType::nth` — "element at
index (0-based)"; the spec does not fix the out-of-range behaviour, which
is modelled as an `INCORRECT_TYPE` error. -/
def nthF (v : LispyType) (i : Nat) : Res LispyType :=
  match v with
  | .list xs =>
    match xs.get? i with
    | some x => .ok x
    | none =>
      .err (LispyType.create_error "nth index out of range" "INCORRECT_TYPE")
  | _ => .err (LispyType.create_error "nth expects a list" "INCORRECT_TYPE")

/-- The `println`/`print` body: concatenate each argument's display form
(the write to stdout is a side effect outside the model). -/
def displayConcat : Nat → List LispyType → Res String
  | _, [] => .ok ""
  | fuel, x :: xs => do
    let s ← display fuel x
    let s2 ← displayConcat fuel xs
    .ok (s ++ s2)

/-- Each argument's `as_list().unwrap()`, for `concat`. -/
def allAsLists : List LispyType → Res (List (List LispyType))
  | [] => .ok []
  | x :: xs =>
    match x.as_list with
    | none => .panicked
    | some l => do
      let ls ← allAsLists xs
      .ok (l :: ls)

def predApply (args : List LispyType) (p : LispyType → Bool) :
    Res LispyType :=
  match args with
  | a :: _ => .ok (.bool (p a))
  | _ => .panicked

/-- `PartialOrd`-derived comparison operators `> < >= <=` as used in
`core_ns.rs`: `a OP b` holds iff `partial_cmp` yields one of the accepted
orderings. -/
def cmpApply (args : List LispyType) (p : Option Ordering → Bool) :
    Res LispyType :=
  match args with
  | a :: b :: _ => do
    let c ← lispyCmp a b
    .ok (.bool (p c))
  | _ => .panicked

/-- The closure bodies installed by `apply_core_ns` (`src/core_ns.rs`),
one arm per distinct closure; `args[i]` indexing out of bounds is a
panic.  `list?` calls `is_bool` exactly as the source does (line 177).
`slurp` performs file input, which is outside the model; it is modelled
as its missing-file `SYSTEM_ERROR` path (no claim touches it). -/
def applyBuiltin (fuel : Nat) (f : BuiltinFn) (args : List LispyType) :
    Res LispyType :=
  match f with
  | .addFn =>
    match args with
    | a :: b :: _ => .ok (lispyAdd a b)
    | _ => .panicked
  | .subFn =>
    match args with
    | a :: b :: _ => .ok (lispySub a b)
    | _ => .panicked
  | .mulFn =>
    match args with
    | a :: b :: _ => .ok (lispyMul a b)
    | _ => .panicked
  | .divFn =>
    match args with
    | a :: b :: _ => .ok (lispyDiv a b)
    | _ => .panicked
  | .printlnFn => do
    let _ ← displayConcat fuel args
    .ok .nil
  | .printFn => do
    let _ ← displayConcat fuel args
    .ok .nil
  | .listFn => .ok (.list args)
  | .countFn =>
    match args with
    | a :: _ => do
      let res ← lenF fuel a
      if res.is_error then .err res else .ok res
    | _ => .panicked
  | .consFn =>
    match args with
    | [] => .panicked
    | _ =>
      match args.getLast? with
      | none => .panicked
      | some last =>
        match last.as_list with
        | none => .panicked
        | some tail => .ok (.list (args.dropLast ++ tail))
  | .concatFn => do
    let ls ← allAsLists args
    .ok (.list ls.flatten)
  | .firstFn =>
    match args with
    | a :: _ => firstF a
    | _ => .panicked
  | .restFn =>
    match args with
    | a :: _ => restF a
    | _ => .panicked
  | .nthFn =>
    match args with
    | a :: i :: _ =>
      match i.as_number with
      | none => .panicked
      | some q => nthF a (intToUsize q)
    | _ => .panicked
  | .nilP => predApply args LispyType.is_nil
  | .boolP => predApply args LispyType.is_bool
  | .symbolP => predApply args LispyType.is_symbol
  | .numberP => predApply args LispyType.is_number
  | .stringP => predApply args LispyType.is_string
  | .listP => predApply args LispyType.is_bool
  | .hashP => predApply args LispyType.is_hash
  | .functionP => predApply args LispyType.is_function
  | .macroP => predApply args LispyType.is_macro_value
  | .eqFn =>
    match args with
    | a :: b :: _ => do
      let r ← lispyEq fuel a b
      .ok (.bool r)
    | _ => .panicked
  | .gtFn => cmpApply args (fun c => c == some Ordering.gt)
  | .ltFn => cmpApply args (fun c => c == some Ordering.lt)
  | .geFn =>
    cmpApply args
      (fun c => c == some Ordering.gt || c == some Ordering.eq)
  | .leFn =>
    cmpApply args
      (fun c => c == some Ordering.lt || c == some Ordering.eq)
  | .compileStringFn =>
    match args with
    | a :: _ =>
      match a.as_string with
      | none => .panicked
      | some s => do
        let ast ← compile_source_code_to_ast fuel s
        .ok (.list (.symbol "do" :: ast))
    | _ => .panicked
  | .slurpFn =>
    match args with
    | a :: _ =>
      match a.as_string with
      | none => .panicked
      | some p =>
        .err (LispyType.create_error ("File " ++ p ++ " not found")
          "SYSTEM_ERROR")
    | _ => .panicked

/-- `LispyType::apply_function` (`src/types.rs` lines 192-210): a fixed
arity must equal the argument count, else `INCORRECT_ARITY`. -/
def apply_function (fuel : Nat) (f : LispyType) (args : List LispyType) :
    Res LispyType :=
  match f with
  | .function arity func =>
    match arity with
    | some n =>
      if n ≠ args.length then
        .err (.error "INCORRECT_ARITY"
          ("Expected arity " ++ toString n ++ ", received " ++
            toString args.length))
      else applyBuiltin fuel func args
    | none => applyBuiltin fuel func args
  | _ =>
    .err (.error "NOT_A_FUNCTION" (debugFmt fuel f ++ " is not a function"))

/-- `apply_core_ns` (`src/core_ns.rs`): the exact sequence of `env.set`
calls in source order.  Note that `"string?"` is registered twice with
the same body, and that the name `"<"` is registered twice — first with
the strict-less body (`ltFn`, line 213) and then again with the
less-or-equal body (`leFn`, line 225), which overwrites it — while the
name `"<="` is never registered. -/
def apply_core_ns (env : LispyEnv) : LispyEnv :=
  let env := env.set_item "+" (LispyType.create_function (some 2) .addFn)
  let env := env.set_item "-" (LispyType.create_function (some 2) .subFn)
  let env := env.set_item "*" (LispyType.create_function (some 2) .mulFn)
  let env := env.set_item "/" (LispyType.create_function (some 2) .divFn)
  let env := env.set_item "println"
    (LispyType.create_function none .printlnFn)
  let env := env.set_item "print" (LispyType.create_function none .printFn)
  let env := env.set_item "list" (LispyType.create_function none .listFn)
  let env := env.set_item "count"
    (LispyType.create_function (some 1) .countFn)
  let env := env.set_item "cons" (LispyType.create_function none .consFn)
  let env := env.set_item "concat"
    (LispyType.create_function none .concatFn)
  let env := env.set_item "first"
    (LispyType.create_function (some 1) .firstFn)
  let env := env.set_item "rest" (LispyType.create_function (some 1) .restFn)
  let env := env.set_item "nth" (LispyType.create_function (some 2) .nthFn)
  let env := env.set_item "nil?" (LispyType.create_function (some 1) .nilP)
  let env := env.set_item "bool?" (LispyType.create_function (some 1) .boolP)
  let env := env.set_item "symbol?"
    (LispyType.create_function (some 1) .symbolP)
  let env := env.set_item "number?"
    (LispyType.create_function (some 1) .numberP)
  let env := env.set_item "string?"
    (LispyType.create_function (some 1) .stringP)
  let env := env.set_item "string?"
    (LispyType.create_function (some 1) .stringP)
  let env := env.set_item "list?" (LispyType.create_function (some 1) .listP)
  let env := env.set_item "hash?" (LispyType.create_function (some 1) .hashP)
  let env := env.set_item "function?"
    (LispyType.create_function (some 1) .functionP)
  let env := env.set_item "macro?"
    (LispyType.create_function (some 1) .macroP)
  let env := env.set_item "=" (LispyType.create_function (some 2) .eqFn)
  let env := env.set_item ">" (LispyType.create_function (some 2) .gtFn)
  let env := env.set_item "<" (LispyType.create_function (some 2) .ltFn)
  let env := env.set_item ">=" (LispyType.create_function (some 2) .geFn)
  let env := env.set_item "<" (LispyType.create_function (some 2) .leFn)
  let env := env.set_item "compile-string"
    (LispyType.create_function (some 1) .compileStringFn)
  let env := env.set_item "slurp"
    (LispyType.create_function (some 1) .slurpFn)
  env

/-- `LispyEnv::root` (`src/env.rs` lines 12-19). -/
def LispyEnv.root : LispyEnv := apply_core_ns (.mk [] none)

/-- `is_macro_call` (`src/machine.rs` lines 107-124): a non-empty list
whose head is a symbol resolving in `env` to a macro. -/
def is_macro_call (ast : LispyType) (env : LispyEnv) : Bool :=
  match ast with
  | .list items =>
    match items.head? with
    | none => false
    | some h =>
      match h with
      | .symbol s =>
        match env.get_item s with
        | none => false
        | some v => v.is_macro_value
      | _ => false
  | _ => false

/-- The reversed accumulation loop of `quasi_quote`: `acc` is the
`result` vector built so far; `qq` is the recursive expansion at the
remaining fuel. -/
def qqFoldGo (qq : LispyType → Res LispyType) :
    List LispyType → List LispyType → Res LispyType
  | [], acc => .ok (.list acc)
  | elt :: rest, acc => do
    let newAcc ←
      match elt with
      | .list eitems =>
        match eitems.head? with
        | none => Res.panicked
        | some eh =>
          if eh.is_symbol_containing "splice-unquote" then
            match eitems.get? 1 with
            | none => Res.panicked
            | some z =>
              Res.ok [LispyType.create_symbol "concat", z, .list acc]
          else do
            let q ← qq elt
            Res.ok [LispyType.create_symbol "cons", q, .list acc]
      | _ => do
        let q ← qq elt
        Res.ok [LispyType.create_symbol "cons", q, .list acc]
    qqFoldGo qq rest newAcc

/-- `quasi_quote` (`src/machine.rs` lines 64-105).  Both shape probes use
`get(0).unwrap()`, so an empty list — outermost or as an element — is a
panic. -/
def quasi_quote : Nat → LispyType → Res LispyType
  | 0, _ => .fuelOut
  | fuel+1, ast =>
    match ast with
    | .list items =>
      match items.head? with
      | none => .panicked
      | some h =>
        if h.is_symbol_containing "unquote" then fromOpt (items.get? 1)
        else qqFoldGo (fun x => quasi_quote fuel x) items.reverse []
    | .hash _ => .ok (.list [.symbol "quote", ast])
    | .symbol _ => .ok (.list [.symbol "quote", ast])
    | v => .ok v

/-! The evaluator.  The Rust `eval` is one big trampoline loop with
helper loops; it is embedded in open-recursion style: every helper is a
non-recursive (or list-structural) function parameterized by `step`, the
evaluator at the remaining fuel, and `evalStep` ties the knot by
recursion on the fuel alone.  This keeps every definition's equations
small while the semantics is exactly the source's. -/

/-- The element loop of `eval_ast` on a `List`: evaluation threads the
borrowed environment through each element. -/
def evalListElemsF
    (step : LispyType → LispyEnv → LispyEnv → Res (LispyType × LispyEnv)) :
    List LispyType → LispyEnv → Res (List LispyType × LispyEnv)
  | [], env => .ok ([], env)
  | x :: xs, env => do
    let (v, env2) ← step x env env
    let (vs, env3) ← evalListElemsF step xs env2
    Res.ok (v :: vs, env3)

/-- The entry loop of `eval_ast` on a `Hash`: values are evaluated (keys
pass through) and inserted into a fresh map. -/
def evalHashElemsF (fuel : Nat)
    (step : LispyType → LispyEnv → LispyEnv → Res (LispyType × LispyEnv)) :
    List (LispyType × LispyType) → LispyEnv →
    List (LispyType × LispyType) →
    Res (List (LispyType × LispyType) × LispyEnv)
  | [], env, acc => .ok (acc, env)
  | (k, v) :: rest, env, acc => do
    let (v2, env2) ← step v env env
    let acc2 ← hashInsertF fuel acc k v2
    evalHashElemsF fuel step rest env2 acc2

/-- `eval_ast` (`src/machine.rs` lines 11-62), parameterized by the
recursive evaluator. -/
def evalAstF (fuel : Nat)
    (step : LispyType → LispyEnv → LispyEnv → Res (LispyType × LispyEnv))
    (expr : LispyType) (env : LispyEnv) : Res (LispyType × LispyEnv) :=
  match expr with
  | .symbol s =>
    match env.get_item s with
    | some v => .ok (v, env)
    | none =>
      .err (.error "NOT_DEFINED" ("Symbol " ++ s ++ " is not defined"))
  | .list items => do
    let (vs, env2) ← evalListElemsF step items env
    Res.ok (.list vs, env2)
  | .hash kvs => do
    let (kvs2, env2) ← evalHashElemsF fuel step kvs env []
    Res.ok (.hash kvs2, env2)
  | v => .ok (v, env)

/-- `macro_expand` (`src/machine.rs` lines 126-147): while the expression
is a macro call, apply the macro lambda to the unevaluated tail and
evaluate its body in the lambda's child environment.  The `Nat` argument
bounds the while-loop. -/
def expandMacrosF
    (step : LispyType → LispyEnv → LispyEnv → Res (LispyType × LispyEnv)) :
    Nat → LispyType → LispyEnv → Res LispyType
  | fuel, ast, env =>
    if ¬ is_macro_call ast env then .ok ast
    else
      match fuel with
      | 0 => .fuelOut
      | fuel+1 => do
        let items ← fromOpt ast.as_list
        let h ← fromOpt items.head?
        let s ← fromOpt h.as_symbol
        let callee ← fromOpt (env.get_item s)
        let (to_eval, n_env) ← apply_lambda fuel callee (items.drop 1)
        let (res, _) ← step to_eval n_env n_env
        expandMacrosF step fuel res env

/-- The binding loop of the `let*` arm; `bindingsVal` is the whole
bindings form, displayed in the error message. -/
def letLoopF (fuel : Nat)
    (step : LispyType → LispyEnv → LispyEnv → Res (LispyType × LispyEnv)) :
    List LispyType → LispyEnv → LispyType → Res LispyEnv
  | [], n_env, _ => .ok n_env
  | key :: value :: rest, n_env, bindingsVal =>
    if ¬ key.is_symbol then do
      let d ← display fuel bindingsVal
      Res.err (.error "INCORRECT_TYPE"
        ("let* bindings key must be a symbol. Received: " ++ d))
    else do
      let (v, n_env2) ← step value n_env n_env
      match key.as_symbol with
      | some s => letLoopF fuel step rest (n_env2.set_item s v) bindingsVal
      | none => Res.panicked
  | _ :: [], _, _ => .panicked

/-- The `for index in 1..len-1` side-effect loop of the `do` arm. -/
def doMidsF
    (step : LispyType → LispyEnv → LispyEnv → Res (LispyType × LispyEnv)) :
    List LispyType → LispyEnv → Res LispyEnv
  | [], env => .ok env
  | x :: xs, env => do
    let (_, env2) ← step x env env
    doMidsF step xs env2

/-- The catch-clause walk of the `try*` arm (`src/machine.rs` lines
423-438): each clause's second element is evaluated as an expression via
`eval_ast` and compared with `==` against the raised value; on a match
the handler is evaluated, otherwise the walk continues, and after the
last clause the raised value is re-raised. -/
def clauseWalkF (fuel : Nat)
    (step : LispyType → LispyEnv → LispyEnv → Res (LispyType × LispyEnv)) :
    List LispyType → LispyType → LispyEnv → LispyEnv →
    Res (LispyType × LispyEnv)
  | [], raised, _, _ => .err raised
  | c :: cs, raised, env, passedEnv => do
    let cl ← fromOpt c.as_list
    let tpl ← fromOpt (cl.get? 1)
    let (t, env2) ← evalAstF fuel step tpl env
    let r ← lispyEq fuel t raised
    if r then do
      let handler ← fromOpt (cl.get? 2)
      let (v, _) ← step handler env2 env2
      Res.ok (v, passedEnv)
    else clauseWalkF fuel step cs raised env2 passedEnv

/-- The default arm of the dispatch (`src/machine.rs` lines 443-476):
evaluate every element, then apply the head to the rest — returning for a
native function, tail-rewriting (via `step`) for a lambda. -/
def evalApplyF (fuel : Nat)
    (step : LispyType → LispyEnv → LispyEnv → Res (LispyType × LispyEnv))
    (expr : LispyType) (env passedEnv : LispyEnv) :
    Res (LispyType × LispyEnv) :=
  match evalAstF fuel step expr env with
  | .err e => .err e
  | .panicked => .panicked
  | .fuelOut => .fuelOut
  | .ok (evaluated, _) => do
    let cl ← fromOpt evaluated.as_list
    let callee ← fromOpt (cl.get? 0)
    let arguments := cl.drop 1
    if callee.is_function && ¬ callee.is_lambda then do
      let v ← apply_function fuel callee arguments
      Res.ok (v, passedEnv)
    else do
      let (to_eval, n_env) ← apply_lambda fuel callee arguments
      step to_eval n_env passedEnv

/-- One state of the `eval` trampoline (`src/machine.rs` lines 149-481):
`expr` and `env` are the loop variables `expression` and `env`,
`passedEnv` is `passed_env` (mutated only through `modify_with` in the
`def!`/`defmacro!`/`deferror!` arms).  `ok` carries the returned value
together with the state of `passed_env` visible to the caller; `err`
leaves the caller's environment untouched, exactly as in the source,
where no error path reaches `modify_with`.  `step` is both the `continue`
of the loop and the recursive `eval` of subexpressions. -/
def evalStepGo (fuel : Nat)
    (step : LispyType → LispyEnv → LispyEnv → Res (LispyType × LispyEnv))
    (expr : LispyType) (env passedEnv : LispyEnv) :
    Res (LispyType × LispyEnv) :=
  match expr with
  | .list _ =>
    match expandMacrosF step fuel expr env with
    | .err e => .err e
    | .panicked => .panicked
    | .fuelOut => .fuelOut
    | .ok expr2 =>
      match expr2 with
      | .list items =>
        match items with
        | [] => .ok (.list [], passedEnv)
        | first :: _ =>
          match first with
          | .symbol name =>
            if name = "def!" then do
              let key ← fromOpt (items.get? 1)
              let value ← fromOpt (items.get? 2)
              if ¬ key.is_symbol then do
                let d ← display fuel key
                Res.err (.error "INCORRECT_TYPE"
                  ("def! first arg must be a symbol. Received: " ++ d))
              else do
                let (v, env2) ← step value env env
                let s ← fromOpt key.as_symbol
                Res.ok (v, LispyEnv.modify_with passedEnv
                  (env2.set_item s v))
            else if name = "defmacro!" then do
              let key ← fromOpt (items.get? 1)
              let value ← fromOpt (items.get? 2)
              if ¬ key.is_symbol then do
                let d ← display fuel key
                Res.err (.error "INCORRECT_TYPE"
                  ("defmacro! first arg must be a symbol. Received: " ++ d))
              else do
                let (v, env2) ← step value env env
                if ¬ v.is_lambda then do
                  let d ← display fuel key
                  Res.err (.error "INCORRECT_TYPE"
                    ("defmacro! second arg must be a lambda. Received: " ++
                      d))
                else do
                  let v2 := v.convert_to_macro_fn
                  let s ← fromOpt key.as_symbol
                  Res.ok (v2, LispyEnv.modify_with passedEnv
                    (env2.set_item s v2))
            else if name = "deferror!" then do
              let a1 ← fromOpt (items.get? 1)
              let s ← fromOpt a1.as_symbol
              let a2 ← fromOpt (items.get? 2)
              let et ← fromOpt a2.as_string
              Res.ok (.nil, LispyEnv.modify_with passedEnv
                (env.set_item s (LispyType.create_error et s)))
            else if name = "let*" then do
              let bindings ← fromOpt (items.get? 1)
              let to_eval ← fromOpt (items.get? 2)
              match bindings.as_list with
              | some bl =>
                if bl.length % 2 ≠ 0 then do
                  let d ← display fuel bindings
                  Res.err (.error "INCORRECT_TYPE"
                    ("let* first arg must be a list of key value pairs. Received: "
                      ++ d))
                else do
                  let n_env2 ← letLoopF fuel step bl (LispyEnv.child env)
                    bindings
                  step to_eval n_env2 passedEnv
              | none => do
                let d ← display fuel bindings
                Res.err (.error "INCORRECT_TYPE"
                  ("let* first arg must be a list of key value pairs. Received: "
                    ++ d))
            else if name = "do" then
              if items.length = 1 then Res.ok (.nil, passedEnv)
              else if items.length = 2 then do
                let last ← fromOpt (items.get? (items.length - 1))
                step last env passedEnv
              else do
                let envN ← doMidsF step ((items.drop 1).dropLast) env
                let last ← fromOpt (items.get? (items.length - 1))
                step last envN passedEnv
            else if name = "if" then do
              let cond ← fromOpt (items.get? 1)
              match step cond env env with
              | .ok (c, env2) => do
                let to_eval ←
                  fromOpt (items.get? (if c.is_truthy then 2 else 3))
                step to_eval env2 passedEnv
              | .err _ => .panicked
              | .panicked => .panicked
              | .fuelOut => .fuelOut
            else if name = "fn*" then do
              let b ← fromOpt (items.get? 1)
              let bl ← fromOpt b.as_list
              let body ← fromOpt (items.get? 2)
              Res.ok (.lambda bl body env false, passedEnv)
            else if name = "eval" then do
              let e1 ← fromOpt (items.get? 1)
              let (v, env2) ← step e1 env env
              step v env2 passedEnv
            else if name = "quote" then do
              let v ← fromOpt (items.get? 1)
              Res.ok (v, passedEnv)
            else if name = "quasi-quote-expand" then do
              let v ← fromOpt (items.get? 1)
              let q ← quasi_quote fuel v
              Res.ok (q, passedEnv)
            else if name = "quasi-quote" then do
              let v ← fromOpt (items.get? 1)
              let q ← quasi_quote fuel v
              step q env passedEnv
            else if name = "macro-expand" then do
              let v ← fromOpt (items.get? 1)
              let r ← expandMacrosF step fuel v env
              Res.ok (r, passedEnv)
            else if name = "throw" then do
              let a ← fromOpt (items.get? 1)
              match evalAstF fuel step a env with
              | .ok (v, _) => Res.err v
              | .err e => Res.err e
              | .panicked => .panicked
              | .fuelOut => .fuelOut
            else if name = "try*" then do
              let body ← fromOpt (items.get? 1)
              match step body env env with
              | .ok (v, _) => Res.ok (v, passedEnv)
              | .err raised =>
                clauseWalkF fuel step (items.drop 2) raised env passedEnv
              | .panicked => .panicked
              | .fuelOut => .fuelOut
            else evalApplyF fuel step expr2 env passedEnv
          | _ => evalApplyF fuel step expr2 env passedEnv
      | nonList =>
        match evalAstF fuel step nonList env with
        | .ok (v, _) => .ok (v, passedEnv)
        | .err e => .err e
        | .panicked => .panicked
        | .fuelOut => .fuelOut
  | _ =>
    match evalAstF fuel step expr env with
    | .ok (v, _) => .ok (v, passedEnv)
    | .err e => .err e
    | .panicked => .panicked
    | .fuelOut => .fuelOut

/-- The fuel knot: each trampoline state and each recursive evaluation of
a subexpression runs at one unit less fuel. -/
def evalStep : Nat → LispyType → LispyEnv → LispyEnv →
    Res (LispyType × LispyEnv)
  | 0, _, _, _ => .fuelOut
  | fuel+1, expr, env, passedEnv =>
    evalStepGo fuel (fun e v p => evalStep fuel e v p) expr env passedEnv

/-- `eval` (`src/machine.rs`): the trampoline starts with the local
environment equal to a clone of the passed environment. -/
def eval (fuel : Nat) (expr : LispyType) (passedEnv : LispyEnv) :
    Res (LispyType × LispyEnv) :=
  evalStep fuel expr passedEnv passedEnv

/-- `eval_ast` at a given fuel, as called from inside a trampoline state
with one unit of fuel already consumed. -/
def evalAst (fuel : Nat) (expr : LispyType) (env : LispyEnv) :
    Res (LispyType × LispyEnv) :=
  evalAstF fuel (fun e v p => evalStep fuel e v p) expr env

/-- The hypothesis shape for the no-clause-matches half of the `try*`
claim: every catch clause is a well-formed list whose second element
evaluates (via `eval_ast`, threading the environment exactly as the
clause walk does) to a template that is not `==`-equal to the raised
value. -/
def templatesMismatch (fuel : Nat) :
    List LispyType → LispyType → LispyEnv → Prop
  | [], _, _ => True
  | c :: cs, raised, env => ∃ cl tpl t env2,
      c = .list cl ∧ cl.get? 1 = some tpl ∧
      evalAst fuel tpl env = .ok (t, env2) ∧
      lispyEq fuel t raised = .ok false ∧
      templatesMismatch fuel cs raised env2

/-! ## Helper lemmas -/

theorem get_item_set_item_self (e : LispyEnv) (k : String) (v : LispyType) :
    (e.set_item k v).get_item k = some v := by
  cases e with
  | mk s p =>
    cases p <;>
      simp [LispyEnv.set_item, LispyEnv.get_item, LispyEnv.storeGet,
        LispyEnv.store, LispyEnv.parent]

theorem get_item_set_item_ne (e : LispyEnv) (k k2 : String)
    (v : LispyType) (h : k ≠ k2) :
    (e.set_item k v).get_item k2 = e.get_item k2 := by
  cases e with
  | mk s p =>
    cases p <;>
      simp [LispyEnv.set_item, LispyEnv.get_item, LispyEnv.storeGet,
        LispyEnv.store, LispyEnv.parent, h]

/-- `templatesMismatch` drives the clause walk to the final re-raise. -/
theorem clauseWalk_mismatch (raised : LispyType) (fuel : Nat) :
    ∀ (cs : List LispyType) (env p : LispyEnv),
    templatesMismatch fuel cs raised env →
    clauseWalkF fuel (fun e v p2 => evalStep fuel e v p2) cs raised env p
      = .err raised := by
  intro cs
  induction cs with
  | nil => intro env p _; rfl
  | cons c cs ih =>
    intro env p h
    obtain ⟨cl, tpl, t, env2, hc, hget, hast, heq, htail⟩ := h
    subst hc
    rw [clauseWalkF]
    simp only [LispyType.as_list, fromOpt, bind, Res.bind, hget,
      show evalAstF fuel (fun e v p2 => evalStep fuel e v p2) tpl env
          = .ok (t, env2) from hast, heq]
    exact ih env2 p htail

/-- A value that is not a symbol, list, or hash is self-evaluating: one
trampoline state returns it unchanged. -/
theorem evalStep_atom (fuel : Nat) (v : LispyType) (env p : LispyEnv)
    (hsym : v.is_symbol = false) (hlist : v.is_list = false)
    (hhash : v.is_hash = false) :
    evalStep (fuel+1) v env p = .ok (v, p) := by
  cases v <;> simp_all [LispyType.is_symbol, LispyType.is_list,
    LispyType.is_hash, evalStep, evalStepGo, evalAstF]

/-! ## Claim theorems -/

/-- C1, counterexample.  The claim says every value other than `Nil` and
`Bool(false)` — among them the number `0` — is truthy, and that a truthy
value in condition position always selects the then-branch.  In the code
`is_truthy` is false at `Number(0)` although `Number(0)` is neither `Nil`
nor `Bool(false)`; moreover a truthy `Symbol` value in condition position
is re-evaluated by lookup, so `(if v a b)` can evaluate `b` for a truthy
`v`; and a macro bound to the name `if` preempts the special form. -/
theorem C1_counterexample :
    LispyType.is_truthy (.number 0) = false
    ∧ (LispyType.number 0).is_nil = false
    ∧ (LispyType.number 0).is_bool = false
    ∧ LispyType.is_truthy (.symbol "x") = true
    ∧ eval 9 (.list [.symbol "if", .symbol "x", .number 1, .number 2])
        (.mk [("x", .bool false)] none)
      = .ok (.number 2, .mk [("x", .bool false)] none)
    ∧ eval 9 (.number 1) (.mk [("x", .bool false)] none)
      = .ok (.number 1, .mk [("x", .bool false)] none)
    ∧ is_macro_call
        (.list [.symbol "if", .bool true, .number 1, .number 2])
        (LispyEnv.set_item LispyEnv.root "if"
          (.lambda [] .nil (.mk [] none) true)) = true
    ∧ eval 9 (.list [.symbol "if", .bool true, .number 1, .number 2])
        (LispyEnv.set_item LispyEnv.root "if"
          (.lambda [] .nil (.mk [] none) true))
      = .err (.error "INCORRECT_ARITY" "Expected arity 0, received 3") :=
  ⟨rfl, rfl, rfl, rfl, rfl, rfl, rfl, rfl⟩

/-- C1, amended.  A value is falsy exactly when it is `Nil`,
`Bool(false)`, or `Number(0)`; every other value — including the empty
string, the empty list, and the empty hash — is truthy.  For any truthy
self-evaluating value `v` (not a `Symbol`, `List`, or `Hash`, which the
condition position re-evaluates) and any forms `a`, `b`, evaluating
`(if v a b)` in an environment where the name `if` is not bound to a
macro equals evaluating `a` (at one trampoline state less fuel). -/
theorem C1_amended :
    (∀ v : LispyType, v.is_truthy = false ↔
      (v = .nil ∨ v = .bool false ∨ v = .number 0))
    ∧ (∀ (fuel : Nat) (env : LispyEnv) (v a b : LispyType),
        v.is_truthy = true → v.is_symbol = false → v.is_list = false →
        v.is_hash = false →
        is_macro_call (.list [.symbol "if", v, a, b]) env = false →
        eval (fuel+2) (.list [.symbol "if", v, a, b]) env
          = eval (fuel+1) a env) := by
  constructor
  · intro v
    cases v <;> simp [LispyType.is_truthy]
  · intro fuel env v a b htr hsym hlist hhash hm
    show evalStep (fuel+1+1) _ env env = _
    rw [evalStep]
    rw [evalStepGo]
    simp only [expandMacrosF, hm, Bool.not_false, if_true, ite_true,
      Bool.not_eq_true]
    simp only [List.get?, fromOpt, bind, Res.bind,
      evalStep_atom fuel v env env hsym hlist hhash, htr]
    simp [eval]

/-- C1, witness for the amended theorem at the truthy value `7`. -/
theorem C1_amended_witness :
    eval 2 (.list [.symbol "if", .number 7, .number 1, .number 2])
      LispyEnv.root = eval 1 (.number 1) LispyEnv.root :=
  C1_amended.2 0 LispyEnv.root (.number 7) (.number 1) (.number 2)
    rfl rfl rfl rfl rfl

/-- C2: on `(if c t)` with a falsy condition and the else branch
omitted, the evaluator does not return `Nil` — the arm reads
`expression.as_list().unwrap().get(3).unwrap()` on a three-element list
and the `unwrap` of `None` is a host panic that aborts the process. -/
theorem C2_code_bug :
    LispyType.is_truthy (.bool false) = false
    ∧ eval 9 (.list [.symbol "if", .bool false, .number 1]) LispyEnv.root
        = .panicked
    ∧ eval 9 (.list [.symbol "if", .number 0, .number 1]) LispyEnv.root
        = .panicked
    ∧ eval 9 (.list [.symbol "if", .bool false, .number 1, .number 7])
        LispyEnv.root = .ok (.number 7, LispyEnv.root) :=
  ⟨rfl, rfl, rfl, rfl⟩

/-- C4: `(deferror! <sym> <kind-string>)` returns `Nil`, but the branch
calls `create_error(&error_type, &symbol)` whose parameters are
`(message, err_type)` — so the installed `Error` carries the symbol text
as its kind tag and the kind string as its message, the reverse of the
claim. -/
theorem C4_code_bug :
    eval 9 (.list [.symbol "deferror!", .symbol "my-err",
        .string "SOME_KIND"]) LispyEnv.root
      = .ok (.nil, LispyEnv.set_item LispyEnv.root "my-err"
          (.error "my-err" "SOME_KIND"))
    ∧ LispyEnv.get_item
        (LispyEnv.set_item LispyEnv.root "my-err"
          (.error "my-err" "SOME_KIND")) "my-err"
      = some (.error "my-err" "SOME_KIND")
    ∧ (LispyType.error "my-err" "SOME_KIND").as_error
      = some ("SOME_KIND", "my-err") :=
  ⟨rfl, rfl, rfl⟩

/-- C5: the structural equality behind `=` compares lists with the loop
`for index in 0..len-1`, which never compares the final index pair: two
same-length lists that differ only in their last element compare equal,
both at the `PartialEq` level and through the `=` built-in, contradicting
the claimed element-wise equality "including the last element". -/
theorem C5_code_bug :
    lispyEq 9 (.list [.number 1, .number 2]) (.list [.number 1, .number 3])
      = .ok true
    ∧ lispyEq 9 (.number 2) (.number 3) = .ok false
    ∧ apply_function 9 (.function (some 2) .eqFn)
        [.list [.number 1, .number 2], .list [.number 1, .number 3]]
      = .ok (.bool true)
    ∧ LispyEnv.get_item LispyEnv.root "="
      = some (.function (some 2) .eqFn)
    ∧ lispyEq 9 (.list []) (.list []) = .ok true
    ∧ lispyEq 9 (.list [.number 1]) (.list [.number 2]) = .ok true :=
  ⟨rfl, rfl, rfl, rfl, rfl, rfl⟩

/-- C6: `apply_core_ns` registers the name `"<"` twice — the second
registration (whose body computes `args[0] <= args[1]`) overwrites the
strict one — and never registers `"<="`.  So only three ordering names
are bound, looking up `<=` fails with `NOT_DEFINED`, and the bound `<`
returns true on equal numbers, contradicting strict less-than.  The
general conjunct shows the bound `<` computes `a ≤ b` on all numbers. -/
theorem C6_code_bug :
    LispyEnv.get_item LispyEnv.root "<=" = none
    ∧ LispyEnv.get_item LispyEnv.root "<"
      = some (.function (some 2) .leFn)
    ∧ LispyEnv.get_item LispyEnv.root ">"
      = some (.function (some 2) .gtFn)
    ∧ LispyEnv.get_item LispyEnv.root ">="
      = some (.function (some 2) .geFn)
    ∧ eval 9 (.list [.symbol "<", .number 1, .number 1]) LispyEnv.root
      = .ok (.bool true, LispyEnv.root)
    ∧ eval 9 (.list [.symbol "<=", .number 1, .number 2]) LispyEnv.root
      = .err (.error "NOT_DEFINED" "Symbol <= is not defined")
    ∧ (∀ a b : Int,
        applyBuiltin 9 .leFn [.number a, .number b]
          = .ok (.bool (decide (a ≤ b)))) := by
  refine ⟨rfl, rfl, rfl, rfl, rfl, rfl, ?_⟩
  intro a b
  show cmpApply [.number a, .number b] _ = _
  rcases lt_trichotomy a b with h | h | h
  · simp only [cmpApply, lispyCmp, LispyType.as_number, if_pos h, bind,
      Res.bind, le_of_lt h, decide_eq_true_eq]
    simp [le_of_lt h]
    exact Or.inl rfl
  · subst h
    simp [cmpApply, lispyCmp, LispyType.as_number, bind, Res.bind]
    exact Or.inr rfl
  · have h1 : ¬ a < b := not_lt_of_gt h
    have h2 : ¬ a ≤ b := not_le_of_gt h
    simp [cmpApply, lispyCmp, LispyType.as_number, h, h1, h2, bind,
      Res.bind]
    exact ⟨rfl, rfl⟩

/-- C7: the closure registered under `list?` calls `is_bool` (the source
wires the wrong predicate), so `list?` answers whether the argument is a
`Bool`, not whether it is a `List`: it returns `false` on an actual list
and `true` on a boolean. -/
theorem C7_code_bug :
    LispyEnv.get_item LispyEnv.root "list?"
      = some (.function (some 1) .listP)
    ∧ (∀ v : LispyType, applyBuiltin 9 .listP [v] = .ok (.bool v.is_bool))
    ∧ eval 9 (.list [.symbol "list?", .list [.symbol "list"]]) LispyEnv.root
      = .ok (.bool false, LispyEnv.root)
    ∧ eval 9 (.list [.symbol "list?", .bool true]) LispyEnv.root
      = .ok (.bool true, LispyEnv.root)
    ∧ (LispyType.list []).is_list = true
    ∧ (LispyType.list []).is_bool = false :=
  ⟨rfl, fun _ => rfl, rfl, rfl, rfl, rfl⟩

/-- C10: the display form is not total — `Display for LispyType` calls
`collection.first().unwrap()` on lists (a panic when the list is empty)
and slices `str[0..str.len()-2]` for hashes (a panic when the hash is
empty) — so `println`/`print` applied to an empty list or empty hash
panics instead of printing and returning `Nil`.  Non-empty collections
print fine. -/
theorem C10_code_bug :
    display 9 (.list []) = .panicked
    ∧ display 9 (.hash []) = .panicked
    ∧ applyBuiltin 9 .printlnFn [.list []] = .panicked
    ∧ applyBuiltin 9 .printFn [.list []] = .panicked
    ∧ applyBuiltin 9 .printlnFn [.hash []] = .panicked
    ∧ eval 9 (.list [.symbol "println", .list [.symbol "list"]])
        LispyEnv.root = .panicked
    ∧ applyBuiltin 9 .printlnFn [.list [.bool true, .nil]] = .ok .nil
    ∧ display 9 (.list [.bool true, .nil]) = .ok "[true, nil]"
    ∧ LispyEnv.get_item LispyEnv.root "println"
      = some (.function none .printlnFn)
    ∧ LispyEnv.get_item LispyEnv.root "print"
      = some (.function none .printFn) :=
  ⟨rfl, rfl, rfl, rfl, rfl, rfl, rfl, rfl, rfl, rfl⟩

/-- C3, counterexample.  For the lambda `(fn* (x & r) …)` — bindings
`[x, &, r]`, one fixed parameter before `&` — the claim promises that
four arguments are accepted with `r` bound to the remaining-argument
list.  `apply_lambda` has no `&` handling: four arguments fail with
`INCORRECT_ARITY`, and with exactly three arguments `&` and `r` are bound
positionally (`r` gets the single value `3`, not the list `[2, 3]`). -/
theorem C3_counterexample :
    apply_lambda 9
        (.lambda [.symbol "x", .symbol "&", .symbol "r"] .nil
          (.mk [] none) false)
        [.number 1, .number 2, .number 3, .number 4]
      = .err (.error "INCORRECT_ARITY" "Expected arity 3, received 4")
    ∧ apply_lambda 9
        (.lambda [.symbol "x", .symbol "&", .symbol "r"] .nil
          (.mk [] none) false)
        [.number 1, .number 2, .number 3]
      = .ok (.nil, .mk [("r", .number 3), ("&", .number 2),
          ("x", .number 1)] (some (.mk [] none)))
    ∧ LispyEnv.get_item
        (.mk [("r", .number 3), ("&", .number 2), ("x", .number 1)]
          (some (.mk [] none))) "r"
      = some (.number 3)
    ∧ lispyEq 9 (.number 3) (.list [.number 2, .number 3]) = .ok false :=
  ⟨rfl, rfl, rfl, rfl⟩

/-- Positional binding: `bindParams` over symbol bindings succeeds and
installs each name at the corresponding argument (last occurrence wins,
so with nodup names lookup is positional; other names fall through). -/
theorem bindParams_sound (fuel : Nat) :
    ∀ (syms : List String) (args : List LispyType) (e : LispyEnv),
    syms.length = args.length →
    ∃ e2, bindParams fuel (syms.map LispyType.symbol) args e = .ok e2
      ∧ (∀ name, name ∉ syms → e2.get_item name = e.get_item name)
      ∧ (syms.Nodup → ∀ i (h1 : i < syms.length) (h2 : i < args.length),
          e2.get_item (syms.get ⟨i, h1⟩) = some (args.get ⟨i, h2⟩)) := by
  intro syms
  induction syms with
  | nil =>
    intro args e h
    cases args with
    | nil =>
      exact ⟨e, rfl, fun _ _ => rfl, fun _ i h1 _ => absurd h1 (by simp)⟩
    | cons a as => simp at h
  | cons s ss ih =>
    intro args e h
    cases args with
    | nil => simp at h
    | cons a as =>
      have hlen : ss.length = as.length := by simpa using h
      obtain ⟨e2, hbp, hpres, hidx⟩ := ih as (e.set_item s a) hlen
      refine ⟨e2, ?_, ?_, ?_⟩
      · simpa [bindParams, LispyType.as_symbol] using hbp
      · intro name hn
        have hns : name ≠ s := fun hh => hn (hh ▸ List.mem_cons_self _ _)
        have h2 : name ∉ ss := fun hh => hn (List.mem_cons_of_mem _ hh)
        rw [hpres name h2, get_item_set_item_ne e s name a (Ne.symm hns)]
      · intro hnd i h1 h2
        match i with
        | 0 =>
          have hs : s ∉ ss := (List.nodup_cons.mp hnd).1
          simpa using (hpres s hs).trans (get_item_set_item_self e s a)
        | i+1 =>
          have hnd2 := (List.nodup_cons.mp hnd).2
          simpa using hidx hnd2 i (by simpa using h1) (by simpa using h2)

/-- C3, amended.  Applying a lambda requires the argument count to equal
the parameter count exactly, else `INCORRECT_ARITY` (there is no `&`
special case); when the counts match and every parameter is a symbol,
the body is returned with the parameters bound positionally in a fresh
child of the captured environment (`&` bound like any other symbol). -/
theorem C3_amended (fuel : Nat) (env : LispyEnv)
    (bindings args : List LispyType) (to_eval : LispyType) (mf : Bool) :
    (bindings.length ≠ args.length →
      apply_lambda fuel (.lambda bindings to_eval env mf) args
        = .err (.error "INCORRECT_ARITY"
            ("Expected arity " ++ toString bindings.length ++
              ", received " ++ toString args.length)))
    ∧ (∀ syms : List String, bindings = syms.map LispyType.symbol →
        bindings.length = args.length →
        ∃ e2, apply_lambda fuel (.lambda bindings to_eval env mf) args
            = .ok (to_eval, e2)
          ∧ (syms.Nodup →
              ∀ i (h1 : i < syms.length) (h2 : i < args.length),
              e2.get_item (syms.get ⟨i, h1⟩) = some (args.get ⟨i, h2⟩))) := by
  constructor
  · intro hne
    simp [apply_lambda, hne]
  · intro syms hb hlen
    subst hb
    have hlen2 : syms.length = args.length := by simpa using hlen
    obtain ⟨e2, hbp, _, hidx⟩ :=
      bindParams_sound fuel syms args (LispyEnv.child_lambda env) hlen2
    refine ⟨e2, ?_, hidx⟩
    simp [apply_lambda, hlen, hbp, bind, Res.bind]

/-- C3, witness for the amended theorem: arity mismatch on a 1-parameter
lambda with no arguments, and positional binding of `(x & r)` applied to
three arguments, where `r` holds the third argument. -/
theorem C3_amended_witness :
    apply_lambda 5 (.lambda [.symbol "x"] .nil (.mk [] none) false) []
      = .err (.error "INCORRECT_ARITY" "Expected arity 1, received 0")
    ∧ ∃ e2, apply_lambda 5
        (.lambda [.symbol "x", .symbol "&", .symbol "r"] .nil
          (.mk [] none) false)
        [.number 1, .number 2, .number 3]
        = .ok (.nil, e2)
      ∧ e2.get_item "r" = some (.number 3) := by
  constructor
  · exact (C3_amended 5 (.mk [] none) [.symbol "x"] [] .nil false).1
      (by decide)
  · obtain ⟨e2, hap, hidx⟩ :=
      (C3_amended 5 (.mk [] none)
        [.symbol "x", .symbol "&", .symbol "r"]
        [.number 1, .number 2, .number 3] .nil false).2
        ["x", "&", "r"] rfl rfl
    refine ⟨e2, hap, ?_⟩
    simpa using hidx (by decide) 2 (by decide) (by decide)

/-- C8: `try*`.  When the body evaluates normally, the whole
`(try* <body> <clauses>…)` returns that value (and the caller's
environment is untouched).  When the body raises and every catch
clause's template — evaluated as an expression — differs from the raised
value under the `Error`-kind-tag equality of `PartialEq`, the raised
value is re-raised unchanged.  (The head symbol `try*` must not be
shadowed by a macro binding.) -/
theorem C8_try_catch (fuel : Nat) (env envB : LispyEnv)
    (body v raised : LispyType) (clauses : List LispyType)
    (hm : is_macro_call (.list (.symbol "try*" :: body :: clauses)) env
      = false) :
    (evalStep (fuel+1) body env env = .ok (v, envB) →
      eval (fuel+2) (.list (.symbol "try*" :: body :: clauses)) env
        = .ok (v, env))
    ∧ (evalStep (fuel+1) body env env = .err raised →
        templatesMismatch (fuel+1) clauses raised env →
        eval (fuel+2) (.list (.symbol "try*" :: body :: clauses)) env
          = .err raised) := by
  constructor
  · intro hok
    show evalStep (fuel+1+1) _ env env = _
    rw [evalStep, evalStepGo]
    simp only [expandMacrosF, hm, Bool.not_false, if_true, ite_true,
      Bool.not_eq_true]
    simp only [List.get?, fromOpt, bind, Res.bind, hok]
    simp
  · intro herr htm
    show evalStep (fuel+1+1) _ env env = _
    rw [evalStep, evalStepGo]
    simp only [expandMacrosF, hm, Bool.not_false, if_true, ite_true,
      Bool.not_eq_true]
    simp only [List.get?, fromOpt, bind, Res.bind, herr]
    simpa using clauseWalk_mismatch raised (fuel+1) clauses env env htm

/-- C8, witness: a non-raising body returns through `try*` unchanged,
and a `NOT_DEFINED` raise passes a mismatching `OTHER`-tagged clause
template and is re-raised. -/
theorem C8_witness :
    eval 12 (.list [.symbol "try*", .number 5,
        .list [.symbol "catch*", .symbol "e", .number 9]]) LispyEnv.root
      = .ok (.number 5, LispyEnv.root)
    ∧ eval 12 (.list [.symbol "try*", .symbol "nope",
        .list [.symbol "catch*", .error "OTHER" "x", .number 9]])
        LispyEnv.root
      = .err (.error "NOT_DEFINED" "Symbol nope is not defined") := by
  constructor
  · exact (C8_try_catch 10 LispyEnv.root LispyEnv.root (.number 5)
      (.number 5) .nil
      [.list [.symbol "catch*", .symbol "e", .number 9]] rfl).1 rfl
  · exact (C8_try_catch 10 LispyEnv.root LispyEnv.root (.symbol "nope")
      .nil (.error "NOT_DEFINED" "Symbol nope is not defined")
      [.list [.symbol "catch*", .error "OTHER" "x", .number 9]] rfl).2
      rfl
      ⟨[.symbol "catch*", .error "OTHER" "x", .number 9],
        .error "OTHER" "x", .error "OTHER" "x", LispyEnv.root,
        rfl, rfl, rfl, rfl, trivial⟩
theorem reader_keeps_error_token :
    ∀ (fuel : Nat),
      (∀ ts v ts2, build_any_form fuel ts = .ok (v, ts2) →
        LexerToken.errorTok ∈ ts → LexerToken.errorTok ∈ ts2)
      ∧ (∀ ts acc v ts2, buildListForms fuel ts acc = .ok (v, ts2) →
        LexerToken.errorTok ∈ ts → LexerToken.errorTok ∈ ts2)
      ∧ (∀ ts acc v ts2, buildHashForms fuel ts acc = .ok (v, ts2) →
        LexerToken.errorTok ∈ ts → LexerToken.errorTok ∈ ts2) := by
  intro fuel
  induction fuel with
  | zero =>
    refine ⟨?_, ?_, ?_⟩
    · intro ts v ts2 h; simp [build_any_form] at h
    · intro ts acc v ts2 h; simp [buildListForms] at h
    · intro ts acc v ts2 h; simp [buildHashForms] at h
  | succ fuel ih =>
    obtain ⟨ihA, ihL, ihH⟩ := ih
    refine ⟨?_, ?_, ?_⟩
    · intro ts v ts2 h hmem
      match ts with
      | [] => simp [build_any_form] at h
      | t :: rest =>
        cases t with
        | nilTok =>
          simp [build_any_form] at h
          rcases h with ⟨-, rfl⟩
          simpa using hmem
        | booleanTok b =>
          simp [build_any_form] at h
          rcases h with ⟨-, rfl⟩
          simpa using hmem
        | numberTok n =>
          simp [build_any_form] at h
          rcases h with ⟨-, rfl⟩
          simpa using hmem
        | keywordTok k =>
          simp [build_any_form] at h
          rcases h with ⟨-, rfl⟩
          simpa using hmem
        | symbolTok k =>
          simp [build_any_form] at h
          rcases h with ⟨-, rfl⟩
          simpa using hmem
        | stringTok sv =>
          rw [build_any_form] at h
          split at h
          · simp at h
          · rcases Res.ok.inj h with h2
            rcases Prod.mk.injEq .. ▸ h2 with ⟨-, rfl⟩
            simpa using hmem
        | listStart =>
          rw [build_any_form] at h
          exact ihL _ _ _ _ h (by simpa using hmem)
        | hashStart =>
          rw [build_any_form] at h
          exact ihH _ _ _ _ h (by simpa using hmem)
        | listEnd => simp [build_any_form] at h
        | hashEnd => simp [build_any_form] at h
        | quoteTok => simp [build_any_form] at h
        | quasiQuoteTok => simp [build_any_form] at h
        | unquoteTok => simp [build_any_form] at h
        | spliceUnquoteTok => simp [build_any_form] at h
        | argsSpreadTok => simp [build_any_form] at h
        | errorTok => simp [build_any_form] at h
    · intro ts acc v ts2 h hmem
      match ts with
      | [] => simp [buildListForms] at h
      | t :: rest =>
        rw [buildListForms] at h
        by_cases hEnd : t = LexerToken.listEnd
        · rw [if_pos hEnd] at h
          rcases Res.ok.inj h with h2
          rcases Prod.mk.injEq .. ▸ h2 with ⟨-, rfl⟩
          subst hEnd
          simpa using hmem
        · rw [if_neg hEnd] at h
          rcases hb : build_any_form fuel (t :: rest) with vp | e | _ | _ <;>
            rw [hb] at h <;> simp [bind, Res.bind] at h
          obtain ⟨v1, ts1⟩ := vp
          exact ihL _ _ _ _ h (ihA _ _ _ hb hmem)
    · intro ts acc v ts2 h hmem
      match ts with
      | [] => simp [buildHashForms] at h
      | t :: rest =>
        rw [buildHashForms] at h
        by_cases hEnd : t = LexerToken.hashEnd
        · rw [if_pos hEnd] at h
          rcases Res.ok.inj h with h2
          rcases Prod.mk.injEq .. ▸ h2 with ⟨-, rfl⟩
          subst hEnd
          simpa using hmem
        · rw [if_neg hEnd] at h
          rcases hb : build_any_form fuel (t :: rest) with vp | e | _ | _ <;>
            rw [hb] at h <;> simp [bind, Res.bind] at h
          obtain ⟨k1, ts1⟩ := vp
          rcases hb2 : build_any_form fuel ts1 with vp2 | e2 | _ | _ <;>
            rw [hb2] at h <;> simp [bind, Res.bind] at h
          obtain ⟨v1, ts3⟩ := vp2
          rcases hi : hashInsertF fuel acc k1 v1 with acc2 | e3 | _ | _ <;>
            rw [hi] at h <;> simp [bind, Res.bind] at h
          exact ihH _ _ _ _ h (ihA _ _ _ hb2 (ihA _ _ _ hb hmem))

/-- A successful read consumes every token, and no consumed token is the
lexer `Error` token: a stream containing `Error` is never read
successfully. -/
theorem build_from_tokens_no_error :
    ∀ (fuel : Nat) (ts : List LexerToken) (vs : List LispyType),
    LexerToken.errorTok ∈ ts → build_from_tokens fuel ts ≠ .ok vs := by
  intro fuel
  induction fuel with
  | zero => intro ts vs _ h; simp [build_from_tokens] at h
  | succ fuel ih =>
    intro ts vs hmem h
    match ts with
    | [] => simp at hmem
    | t :: rest =>
      rw [build_from_tokens] at h
      rcases hb : build_any_form fuel (t :: rest) with vp | e | _ | _ <;>
        rw [hb] at h <;> simp [bind, Res.bind] at h
      obtain ⟨v1, ts1⟩ := vp
      have hmem2 := (reader_keeps_error_token fuel).1 _ _ _ hb hmem
      rcases hr : build_from_tokens fuel ts1 with vs2 | _ | _ | _ <;>
        rw [hr] at h <;> simp [bind, Res.bind] at h
      exact ih ts1 vs2 hmem2 hr

/-- C9, counterexample.  The reader never produces a `READ_ERROR` error
result: on an unmatched open bracket (unexpected end of input inside a
form), a stray closing bracket, an odd hash element count, and a lexer
`Error` token it panics — `TokenReader::peek` indexes out of bounds or
`build_any_form` hits `panic!("Unknown token …")` — instead of failing
with `READ_ERROR` as the claim states.  (The string "READ_ERROR" does
not occur anywhere in the reader.) -/
theorem C9_counterexample :
    build_from_tokens 9 [.listStart] = .panicked
    ∧ build_from_tokens 9 [.listStart, .nilTok] = .panicked
    ∧ build_from_tokens 9 [.listEnd] = .panicked
    ∧ build_from_tokens 9 [.hashStart, .nilTok, .hashEnd] = .panicked
    ∧ build_from_tokens 9 [.errorTok] = .panicked :=
  ⟨rfl, rfl, rfl, rfl, rfl⟩

/-- C9, amended.  On token streams with unmatched brackets, an odd hash
element count, an unexpected end of input, or a lexer `Error` token, the
reader does not fail with a `READ_ERROR` error result: it crashes with a
host panic (exhibited on a representative stream of each kind), and no
stream containing an `Error` token is ever read successfully at any
fuel. -/
theorem C9_amended :
    (∀ (fuel : Nat) (ts : List LexerToken) (vs : List LispyType),
      LexerToken.errorTok ∈ ts → build_from_tokens fuel ts ≠ .ok vs)
    ∧ build_from_tokens 9 [.listStart] = .panicked
    ∧ build_from_tokens 9 [.listStart, .nilTok] = .panicked
    ∧ build_from_tokens 9 [.listEnd] = .panicked
    ∧ build_from_tokens 9 [.hashStart, .nilTok, .hashEnd] = .panicked
    ∧ build_from_tokens 9 [.errorTok] = .panicked :=
  ⟨build_from_tokens_no_error, rfl, rfl, rfl, rfl, rfl⟩

/-- C9, witness for the amended theorem: the singleton `Error`-token
stream is not read successfully. -/
theorem C9_amended_witness :
    build_from_tokens 3 [.errorTok] ≠ .ok [] :=
  C9_amended.1 3 [.errorTok] [] (by simp)
